import Mathlib

/-!
Shallow embedding of the funlab-sse plugin (src/funlab/sse) in Lean 4,
with theorems settling the specification claims about it.

Embedded source files:
* src/funlab/sse/model.py   -- EventPriority, PayloadBase, EventBase, EventEntity
* src/funlab/sse/manager.py -- RawEventMessage, ConnectionManager, EventManager
* src/funlab/sse/service.py -- SSEService priority normalisation

Modelling conventions:
* Python dicts are association lists (insertion-ordered, unique keys);
  dict writes update in place when the key exists and append otherwise.
* Python sets are duplicate-free lists; add appends when absent, discard filters.
* UTC instants are naturals (Time); time deltas are added directly.
* A bounded Python queue.Queue is a list together with a capacity; a blocking
  put on a full queue is represented by an explicit Blocked outcome (Python's
  Queue.put with block=True never raises queue.Full - it suspends the caller),
  while put_nowait on a full queue raises queue.Full, modelled as a Bool/branch.
* Fallible code returns Option or Except.
-/

namespace FunlabSSE

/-! ## Time -/

/-- UTC instants, abstracted as naturals (datetime.now(timezone.utc) values). -/
abbrev Time := Nat

/-! ## model.py : EventPriority -/

/-- Embeds model.py class EventPriority(Enum): LOW = 0, NORMAL = 1, HIGH = 2,
CRITICAL = 3. -/
inductive EventPriority where
  | LOW
  | NORMAL
  | HIGH
  | CRITICAL
deriving Repr, DecidableEq

/-- Embeds the Enum member values (LOW = 0 .. CRITICAL = 3). -/
def EventPriority.val : EventPriority → Nat
  | .LOW => 0
  | .NORMAL => 1
  | .HIGH => 2
  | .CRITICAL => 3

/-- Embeds the Python Enum name lookup EventPriority[name]: returns the member
whose name equals the given string, none otherwise (Python raises KeyError). -/
def EventPriority.byName (s : String) : Option EventPriority :=
  if s = "LOW" then some .LOW
  else if s = "NORMAL" then some .NORMAL
  else if s = "HIGH" then some .HIGH
  else if s = "CRITICAL" then some .CRITICAL
  else none

/-! ## model.py : payloads

The repository registers exactly one event class, SystemNotificationEvent with
SystemNotificationPayload (title, message); the embedding is specialised to it.
The JSON text produced by PayloadBase.to_json (json.dumps of the field dict)
is abstracted as the ordered key/value list PayloadJson. -/

/-- Abstraction of a JSON object with string values, as stored in the payload
column: an ordered list of key/value pairs. -/
abbrev PayloadJson := List (String × String)

/-- Embeds model.py SystemNotificationPayload { title, message }. -/
structure SystemNotificationPayload where
  title : String
  message : String
deriving Repr, DecidableEq

/-- Embeds PayloadBase.to_json: json.dumps(self.__dict__), keys in field
declaration order. -/
def SystemNotificationPayload.to_json (p : SystemNotificationPayload) : PayloadJson :=
  [("title", p.title), ("message", p.message)]

/-- Embeds PayloadBase.from_jsonstr: json.loads then cls(**data).  The keyword
construction succeeds exactly when the object holds precisely the keys title
and message (in either order); any other shape raises, modelled as none. -/
def SystemNotificationPayload.from_jsonstr : PayloadJson → Option SystemNotificationPayload
  | [("title", t), ("message", m)] => some ⟨t, m⟩
  | [("message", m), ("title", t)] => some ⟨t, m⟩
  | _ => none

/-! ## model.py : EventBase -/

/-- Embeds the in-memory dataclass EventBase (specialised to the registered
SystemNotificationEvent): id is none until the store assigns one. -/
structure Event where
  id : Option Nat
  event_type : String
  payload : SystemNotificationPayload
  target_userid : Int
  priority : EventPriority
  is_read : Bool
  is_recovered : Bool
  created_at : Time
  expired_at : Option Time
deriving Repr, DecidableEq

/-- Embeds EventBase.__init__ as run by SystemNotificationEvent(...): the
event_type is the class name with the trailing "Event" suffix stripped. -/
def Event.make (target_userid : Int) (priority : EventPriority)
    (expired_at : Option Time) (payload : SystemNotificationPayload)
    (now : Time) : Event :=
  { id := none
    event_type := "SystemNotification"
    payload := payload
    target_userid := target_userid
    priority := priority
    is_read := false
    is_recovered := false
    created_at := now
    expired_at := expired_at }

/-- Embeds EventBase.is_expired: bool(self.expired_at and now > self.expired_at). -/
def Event.isExpired (e : Event) (now : Time) : Bool :=
  match e.expired_at with
  | none => false
  | some t => now > t

/-- Deliverability as defined by the code paths: not is_read and not is_expired. -/
def Event.deliverable (e : Event) (now : Time) : Bool :=
  !e.is_read && !e.isExpired now

/-! ## model.py : EventEntity -/

/-- Embeds the SQLAlchemy-mapped EventEntity row: id is none before the store
flush assigns the autoincrement key. -/
structure EventEntity where
  id : Option Nat
  event_type : String
  payload : PayloadJson
  target_userid : Int
  priority : EventPriority
  is_read : Bool
  created_at : Time
  expired_at : Option Time
deriving Repr, DecidableEq

/-- Embeds the instance-level hybrid property EventEntity.is_expired:
bool(self.expired_at and now > self.expired_at). -/
def EventEntity.isExpired (ent : EventEntity) (now : Time) : Bool :=
  match ent.expired_at with
  | none => false
  | some t => now > t

/-- Row deliverability: not is_read and not is_expired. -/
def EventEntity.deliverable (ent : EventEntity) (now : Time) : Bool :=
  !ent.is_read && !ent.isExpired now

/-- Embeds EventBase.to_entity: returns None when the event is read or expired,
otherwise a fresh row (no id yet) copying type, serialised payload, target,
priority, expiry, then is_read and created_at. -/
def Event.to_entity (e : Event) (now : Time) : Option EventEntity :=
  if e.is_read || e.isExpired now then none
  else some
    { id := none
      event_type := e.event_type
      payload := e.payload.to_json
      target_userid := e.target_userid
      priority := e.priority
      is_read := e.is_read
      created_at := e.created_at
      expired_at := e.expired_at }

/-- Embeds EventBase.from_entity (for the registered class): None when the row
is read or expired; otherwise parse the payload (a parse failure raises in
Python, modelled as .error) and rebuild the event via the class constructor,
then overwrite id, is_read and created_at from the row. -/
def Event.from_entity (ent : EventEntity) (now : Time) : Except Unit (Option Event) :=
  if ent.is_read || ent.isExpired now then .ok none
  else
    match SystemNotificationPayload.from_jsonstr ent.payload with
    | none => .error ()
    | some p =>
      let e := Event.make ent.target_userid ent.priority ent.expired_at p now
      .ok (some { e with id := ent.id, is_read := ent.is_read, created_at := ent.created_at })

/-! ## Python dict / set primitives -/

/-- Dict lookup d.get(k): value of the first (unique) entry with the key. -/
def alookup {α β : Type} [DecidableEq α] (l : List (α × β)) (k : α) : Option β :=
  (l.find? (fun p => p.1 = k)).map Prod.snd

/-- Dict write d[k] = v: update in place when the key exists, append otherwise. -/
def aset {α β : Type} [DecidableEq α] (l : List (α × β)) (k : α) (v : β) : List (α × β) :=
  if (alookup l k).isSome then
    l.map (fun p => if p.1 = k then (k, v) else p)
  else l ++ [(k, v)]

/-- Dict delete del d[k] / d.pop(k, None): drop the entry with the key. -/
def aremove {α β : Type} [DecidableEq α] (l : List (α × β)) (k : α) : List (α × β) :=
  l.filter (fun p => p.1 ≠ k)

/-- Set add s.add(x): append when absent. -/
def sadd {α : Type} [DecidableEq α] (l : List α) (x : α) : List α :=
  if x ∈ l then l else l ++ [x]

/-- Set discard s.discard(x): drop the element when present. -/
def sdiscard {α : Type} [DecidableEq α] (l : List α) (x : α) : List α :=
  l.filter (fun y => y ≠ x)

/-! ## service.py : SSEService._normalize_priority -/

/-- Argument domain of the facade's priority normalisation: either an
EventPriority member or a string. -/
inductive PriorityInput where
  | enum (p : EventPriority)
  | str (s : String)
deriving Repr, DecidableEq

/-- Embeds str.upper() on ASCII letters, as applied to priority names. -/
def pyUpper (s : String) : String :=
  String.mk (s.data.map Char.toUpper)

/-- Embeds SSEService._normalize_priority: an EventPriority passes through;
otherwise EventPriority[str(priority).upper()], falling back to NORMAL on
KeyError. -/
def normalize_priority : PriorityInput → EventPriority
  | .enum p => p
  | .str s =>
    match EventPriority.byName (pyUpper s) with
    | some p => p
    | none => EventPriority.NORMAL

/-! ## manager.py : RawEventMessage -/

/-- Embeds RawEventMessage.__init__: the ephemeral wire-shaped event, never
persisted; its priority is stored as the uppercased string. -/
structure RawEventMessage where
  event_type : String
  target_userid : Int
  payload : PayloadJson
  priority : String
  created_at : Time
deriving Repr, DecidableEq

/-- Constructor applying priority.upper() as __init__ does. -/
def RawEventMessage.make (event_type : String) (target_userid : Int)
    (payload : PayloadJson) (priority : String) (now : Time) : RawEventMessage :=
  { event_type := event_type
    target_userid := target_userid
    payload := payload
    priority := pyUpper priority
    created_at := now }

/-- Items travelling through the central queue and the per-stream mailboxes:
either a persisted-style EventBase or an ephemeral RawEventMessage. -/
inductive QueueItem where
  | ev (e : Event)
  | raw (r : RawEventMessage)
deriving Repr, DecidableEq

/-- Mailbox: a bounded FIFO (queue.Queue of capacity max_events_per_stream),
front of the list is the oldest element. -/
abbrev Mailbox := List QueueItem

/-! ## manager.py : ConnectionManager -/

/-- Embeds the ConnectionManager state: user_id maps to stream_id-to-mailbox,
the per-event-type online user sets, and the per-stream connect times.
Stream ids (uuid4 strings) are modelled as a fresh-nat supply next_sid, and
time.time() as the strictly increasing counter clock. -/
structure ConnState where
  user_connections : List (Int × List (Nat × Mailbox))
  eventtype_connection_users : List (String × List Int)
  users_connect_time : List (Nat × Nat)
  next_sid : Nat
  clock : Nat
deriving Repr, DecidableEq

/-- Embeds ConnectionManager.__init__: empty dicts. -/
def ConnState.init : ConnState :=
  { user_connections := []
    eventtype_connection_users := []
    users_connect_time := []
    next_sid := 0
    clock := 0 }

/-- Keys of the user-connection map. -/
def ConnState.connKeys (s : ConnState) : List Int :=
  s.user_connections.map Prod.fst

/-- Embeds the eviction key lambda sid: self.users_connect_time.get(sid, 0). -/
def connTimeKey (times : List (Nat × Nat)) (sid : Nat) : Nat :=
  (alookup times sid).getD 0

/-- Embeds min(user_conns, key=...): the first stream id attaining the minimal
connect time (Python's min keeps the earliest of equal keys); none on an empty
dict, where Python's min raises ValueError instead (reachable only when
max_connections_per_user = 0). -/
def oldestSid (times : List (Nat × Nat)) : List (Nat × Mailbox) → Option Nat
  | [] => none
  | (sid, _) :: rest =>
    some (rest.foldl
      (fun best p => if connTimeKey times p.1 < connTimeKey times best then p.1 else best)
      sid)

/-- Embeds the defaultdict(set) add self.eventtype_connection_users[et].add(uid). -/
def etAdd (ets : List (String × List Int)) (et : String) (uid : Int) :
    List (String × List Int) :=
  aset ets et (sadd ((alookup ets et).getD []) uid)

/-- Embeds the defaultdict(set) discard
self.eventtype_connection_users[et].discard(uid): the defaultdict access
creates an empty set for a missing key before discarding. -/
def etDiscard (ets : List (String × List Int)) (et : String) (uid : Int) :
    List (String × List Int) :=
  aset ets et (sdiscard ((alookup ets et).getD []) uid)

/-- Embeds ConnectionManager._remove_connection_locked: delete the stream from
the user's dict if present, pop its connect time, and - when the user's dict is
now missing or empty - pop the user and discard them from the given event
type's online set. -/
def removeConnectionLocked (uid : Int) (sid : Nat) (et : String) (s : ConnState) :
    ConnState :=
  let s1 :=
    match alookup s.user_connections uid with
    | some conns =>
      if conns ≠ [] ∧ (alookup conns sid).isSome then
        { s with user_connections := aset s.user_connections uid (aremove conns sid) }
      else s
    | none => s
  let s2 := { s1 with users_connect_time := aremove s1.users_connect_time sid }
  if ((alookup s2.user_connections uid).getD []).isEmpty then
    { s2 with
      user_connections := aremove s2.user_connections uid
      eventtype_connection_users := etDiscard s2.eventtype_connection_users et uid }
  else s2

/-- Embeds ConnectionManager.remove_connection (the lock is elided). -/
def remove_connection (uid : Int) (sid : Nat) (et : String) (s : ConnState) : ConnState :=
  removeConnectionLocked uid sid et s

/-- Embeds ConnectionManager.remove_all_connections: if the user is connected,
delete their whole dict, pop every one of their connect times, and discard the
user from every per-event-type online set. -/
def remove_all_connections (uid : Int) (s : ConnState) : ConnState :=
  match alookup s.user_connections uid with
  | none => s
  | some conns =>
    { s with
      user_connections := aremove s.user_connections uid
      users_connect_time :=
        (conns.map Prod.fst).foldl (fun t sid => aremove t sid) s.users_connect_time
      eventtype_connection_users :=
        s.eventtype_connection_users.map (fun p => (p.1, sdiscard p.2 uid)) }

/-- Embeds ConnectionManager.add_connection: evict the oldest stream when the
user already holds max_connections mailboxes, then insert a fresh stream id
with the current connect time and index the user under the event type.
Returns the new stream id.  (When max_connections = 0 Python's min over the
empty dict raises ValueError; that corner is modelled as a no-op eviction and
excluded by the 0 < max hypothesis of every theorem below.) -/
def add_connection (max : Nat) (uid : Int) (stream : Mailbox) (et : String)
    (s : ConnState) : Nat × ConnState :=
  let conns := (alookup s.user_connections uid).getD []
  let s1 :=
    if max ≤ conns.length then
      match oldestSid s.users_connect_time conns with
      | some old => removeConnectionLocked uid old et s
      | none => s
    else s
  let sid := s1.next_sid
  let conns1 := (alookup s1.user_connections uid).getD []
  (sid,
    { user_connections := aset s1.user_connections uid (aset conns1 sid stream)
      eventtype_connection_users := etAdd s1.eventtype_connection_users et uid
      users_connect_time := aset s1.users_connect_time sid s1.clock
      next_sid := sid + 1
      clock := s1.clock + 1 })

/-- Embeds ConnectionManager.get_user_streams: snapshot of the user's mailboxes.
Pairs carry the stream id so that the state-passing translation can write the
mutation of a Python queue object back into the connection table. -/
def get_user_streams (uid : Int) (s : ConnState) : List (Nat × Mailbox) :=
  (alookup s.user_connections uid).getD []

/-! ## manager.py : EventManager -/

/-- Embeds the EventManager state.  The store is the event table (rows carry
their assigned autoincrement id); registered is the key set of the class-level
registry _event_classes (the repository registers exactly SystemNotification,
from service.py _setup). -/
structure MgrState where
  conn : ConnState
  max_connections : Nat
  event_queue : List QueueItem
  max_queue : Nat
  max_events_per_stream : Nat
  store : List EventEntity
  next_id : Nat
  is_shutting_down : Bool
  registered : List String
deriving Repr, DecidableEq

/-- Embeds EventManager._store_event: convert with to_entity; when a row comes
back, flush assigns the next autoincrement id, the row is committed, and the
event learns its id.  A read/expired event stores nothing. -/
def _store_event (e : Event) (now : Time) (s : MgrState) : Event × MgrState :=
  match e.to_entity now with
  | none => (e, s)
  | some ent =>
    ({ e with id := some s.next_id },
     { s with
        store := s.store ++ [{ ent with id := some s.next_id }]
        next_id := s.next_id + 1 })

/-- Outcome of EventManager._put_event = self.event_queue.put(event) under the
lock: queue.Queue.put with block=True appends when a slot is free and suspends
the caller forever otherwise - it never raises queue.Full. -/
inductive PutResult where
  | enqueued (s : MgrState)
  | blocked
deriving Repr, DecidableEq

/-- Embeds EventManager._put_event (blocking put on the bounded central queue). -/
def _put_event (s : MgrState) (item : QueueItem) : PutResult :=
  if s.event_queue.length < s.max_queue then
    .enqueued { s with event_queue := s.event_queue ++ [item] }
  else .blocked

/-- Outcome of a create_event call: ValueError on an unregistered type, a
normal return carrying the event (the code's dead except-Full branch would
return none), or a never-returning blocking put. -/
inductive CreateResult where
  | unregistered
  | returned (e : Option Event)
  | blocked
deriving Repr, DecidableEq

/-- Embeds EventManager.create_event: look up the registry (ValueError when
missing), compute expired_at (Python truthiness: expire_after = 0 behaves
like None), construct and persist the event, then - only when the target user
has a live connection - run the blocking _put_event.  The event_type of the
constructed event equals the registry key, because register_event keys the
class under its own stripped name. -/
def create_event (s : MgrState) (now : Time) (event_type : String)
    (target_userid : Int) (priority : EventPriority) (expire_after : Option Nat)
    (payload : SystemNotificationPayload) : CreateResult × MgrState :=
  if event_type ∉ s.registered then (.unregistered, s)
  else
    let expired_at :=
      match expire_after with
      | some m => if m = 0 then none else some (now + m)
      | none => none
    let e0 := { Event.make target_userid priority expired_at payload now with
                  event_type := event_type }
    let r := _store_event e0 now s
    if target_userid ∈ r.2.conn.connKeys then
      match _put_event r.2 (.ev r.1) with
      | .enqueued s2 => (.returned (some r.1), s2)
      | .blocked => (.blocked, r.2)
    else (.returned (some r.1), r.2)

/-- Embeds EventManager.send_raw_event: offline users short-circuit to false;
otherwise wrap the payload in a RawEventMessage and put_nowait it onto the
central queue, returning false (after a warning log) when the queue is full.
Nothing is ever written to the store. -/
def send_raw_event (s : MgrState) (now : Time) (event_type : String)
    (target_userid : Int) (payload : PayloadJson) (priority : String) :
    Bool × MgrState :=
  if target_userid ∉ s.conn.connKeys then (false, s)
  else
    let raw := RawEventMessage.make event_type target_userid payload priority now
    if s.event_queue.length < s.max_queue then
      (true, { s with event_queue := s.event_queue ++ [.raw raw] })
    else (false, s)

/-- Embeds the per-mailbox write policy shared by _distribute_event and
_recover_user_events: put_nowait when qsize is below max_events_per_stream,
otherwise get_nowait one (drop the oldest) and then put_nowait.  (The mailbox
queue's own capacity is max_events_per_stream, so the guarded put never raises;
max_events_per_stream = 0 would make Python's queue unbounded and the
get_nowait branch raise Empty, so theorems assume a positive capacity.) -/
def distributeWrite (cap : Nat) (m : Mailbox) (x : QueueItem) : Mailbox :=
  if m.length < cap then m ++ [x]
  else m.drop 1 ++ [x]

/-- Embeds EventManager._distribute_event: write the event into every mailbox
of its target user under the drop-oldest policy. -/
def _distribute_event (s : MgrState) (item : QueueItem) : MgrState :=
  let uid :=
    match item with
    | .ev e => e.target_userid
    | .raw r => r.target_userid
  match alookup s.conn.user_connections uid with
  | none => s
  | some conns =>
    { s with conn :=
      { s.conn with user_connections :=
          (aset s.conn.user_connections uid
            (conns.map (fun p => (p.1, distributeWrite s.max_events_per_stream p.2 item)))) } }

/-- Embeds the WHERE clause of clean_up_events:
is_read == True | expired_at <= now (a NULL expired_at never matches). -/
def staleForCleanup (ent : EventEntity) (now : Time) : Bool :=
  ent.is_read ||
    (match ent.expired_at with
     | some t => t ≤ now
     | none => false)

/-- Embeds EventManager.clean_up_events: delete every read-or-expired row. -/
def clean_up_events (s : MgrState) (now : Time) : MgrState :=
  { s with store := s.store.filter (fun ent => !staleForCleanup ent now) }

/-- Embeds the shutdown drain loop: pop the central queue front to back and
re-persist every still-deliverable event via _store_event.  The loop types its
items as EventBase; a RawEventMessage in the queue has no is_read attribute,
so Python raises AttributeError there, modelled as .error. -/
def drainLoop (now : Time) : List QueueItem → MgrState → Except Unit MgrState
  | [], s => .ok s
  | .raw _ :: _, _ => .error ()
  | .ev e :: rest, s =>
    if e.deliverable now then drainLoop now rest (_store_event e now s).2
    else drainLoop now rest s

/-- Embeds the queue-persisting phase of EventManager.shutdown. -/
def shutdownDrain (s : MgrState) (now : Time) : Except Unit MgrState :=
  drainLoop now s.event_queue { s with event_queue := [] }

/-- Embeds EventManager.shutdown (thread joins elided): no-op when already
shutting down; otherwise set the flag, drain-and-persist the central queue,
disconnect every user, and run one final cleanup. -/
def shutdown (s : MgrState) (now : Time) : Except Unit MgrState :=
  if s.is_shutting_down then .ok s
  else
    let s0 := { s with is_shutting_down := true }
    match shutdownDrain s0 now with
    | .error err => .error err
    | .ok s1 =>
      let s2 := { s1 with conn :=
        s1.conn.connKeys.foldl (fun c uid => remove_all_connections uid c) s1.conn }
      .ok (clean_up_events s2 now)

/-- Strict before-ordering of the recovery query ORDER BY
priority DESC, created_at ASC. -/
def recoveryBefore (a b : EventEntity) : Bool :=
  if a.priority.val = b.priority.val then a.created_at < b.created_at
  else b.priority.val < a.priority.val

/-- Stable insertion into a list sorted by recoveryBefore. -/
def recoveryInsert (x : EventEntity) : List EventEntity → List EventEntity
  | [] => [x]
  | y :: ys => if recoveryBefore y x then y :: recoveryInsert x ys else x :: y :: ys

/-- Stable sort realising the recovery query's ORDER BY. -/
def sortPending : List EventEntity → List EventEntity
  | [] => []
  | x :: xs => recoveryInsert x (sortPending xs)

/-- Embeds one iteration of the _recover_user_events loop over a pending row:
delete it if expired; skip it if its type is unregistered; skip on a
from_entity exception or sentinel; otherwise mark is_recovered and write it
into every snapshot mailbox under the drop-oldest policy. -/
def recoverStep (now : Time) (uid : Int) (sids : List Nat) (s : MgrState)
    (ent : EventEntity) : MgrState :=
  if ent.isExpired now then
    { s with store := s.store.filter (fun r => r.id ≠ ent.id) }
  else if ent.event_type ∉ s.registered then s
  else
    match Event.from_entity ent now with
    | .error _ => s
    | .ok none => s
    | .ok (some e) =>
      let e1 := { e with is_recovered := true }
      match alookup s.conn.user_connections uid with
      | none => s
      | some conns =>
        { s with conn :=
          { s.conn with user_connections :=
              (aset s.conn.user_connections uid
                (conns.map (fun p =>
                  if p.1 ∈ sids then
                    (p.1, distributeWrite s.max_events_per_stream p.2 (.ev e1))
                  else p))) } }

/-- Embeds EventManager._recover_user_events: select the user's unread rows of
the event type, order them priority-desc / created-asc, snapshot the user's
streams, and process each row with recoverStep. -/
def _recover_user_events (s : MgrState) (now : Time) (uid : Int) (et : String) :
    MgrState :=
  let pending := sortPending (s.store.filter
    (fun ent => ent.target_userid = uid ∧ ent.event_type = et ∧ ent.is_read = false))
  let sids := (get_user_streams uid s.conn).map Prod.fst
  pending.foldl (recoverStep now uid sids) s

/-- Embeds EventManager.register_user_stream: open a fresh empty mailbox,
admit it through add_connection, recover the user's stored events into it, and
return the stream id (add_connection always yields one, so the None branch of
the Python function is dead). -/
def register_user_stream (s : MgrState) (now : Time) (uid : Int) (et : String) :
    Option Nat × MgrState :=
  let stream : Mailbox := []
  let r := add_connection s.max_connections uid stream et s.conn
  let s1 := { s with conn := r.2 }
  (some r.1, _recover_user_events s1 now uid et)

/-- Embeds EventManager.unregister_user_stream. -/
def unregister_user_stream (s : MgrState) (uid : Int) (sid : Nat) (et : String) :
    MgrState :=
  { s with conn := remove_connection uid sid et s.conn }

/-! ## Helper lemmas -/

section AssocLemmas

variable {α β : Type} [DecidableEq α]

/-- Lookup on the empty dict. -/
theorem alookup_nil (k : α) : alookup ([] : List (α × β)) k = none := rfl

/-- Lookup on a cons cell. -/
theorem alookup_cons (p : α × β) (l : List (α × β)) (k : α) :
    alookup (p :: l) k = if p.1 = k then some p.2 else alookup l k := by
  by_cases h : p.1 = k <;> simp [alookup, List.find?_cons, h]

/-- A missing key matches no entry. -/
theorem alookup_none_forall {l : List (α × β)} {k : α} (h : alookup l k = none) :
    ∀ p ∈ l, p.1 ≠ k := by
  induction l with
  | nil => simp
  | cons q t ih =>
    rw [alookup_cons] at h
    by_cases hq : q.1 = k
    · simp [hq] at h
    · intro p hp
      rcases List.mem_cons.mp hp with rfl | hp
      · exact hq
      · exact ih (by simpa [hq] using h) p hp

/-- A successful lookup exhibits a member. -/
theorem alookup_mem {l : List (α × β)} {k : α} {v : β} (h : alookup l k = some v) :
    (k, v) ∈ l := by
  induction l with
  | nil => simp [alookup_nil] at h
  | cons q t ih =>
    rw [alookup_cons] at h
    by_cases hq : q.1 = k
    · obtain ⟨qa, qb⟩ := q
      simp only at hq
      subst hq
      simp at h
      subst h
      exact List.mem_cons_self _ _
    · simp only [hq, if_false] at h
      exact List.mem_cons_of_mem _ (ih h)

/-- Lookup succeeds exactly on the key set. -/
theorem alookup_isSome_iff (l : List (α × β)) (k : α) :
    (alookup l k).isSome = true ↔ k ∈ l.map Prod.fst := by
  induction l with
  | nil => simp [alookup_nil]
  | cons q t ih =>
    rw [alookup_cons]
    by_cases hq : q.1 = k <;> simp [hq, ih]
    exact fun h => (hq h.symm).elim

/-- Every member of an updated dict is the written pair or an untouched entry. -/
theorem mem_aset {l : List (α × β)} {k : α} {v : β} {p : α × β}
    (h : p ∈ aset l k v) : p = (k, v) ∨ (p ∈ l ∧ p.1 ≠ k) := by
  unfold aset at h
  by_cases hs : (alookup l k).isSome
  · rw [if_pos hs] at h
    obtain ⟨q, hq, hqe⟩ := List.mem_map.mp h
    by_cases hk : q.1 = k
    · rw [if_pos hk] at hqe
      left
      exact hqe.symm
    · rw [if_neg hk] at hqe
      right
      exact ⟨hqe ▸ hq, hqe ▸ hk⟩
  · rw [if_neg hs] at h
    rcases List.mem_append.mp h with h | h
    · right
      refine ⟨h, ?_⟩
      have hnone : alookup l k = none := by
        cases hl : alookup l k
        · rfl
        · simp [hl] at hs
      exact alookup_none_forall hnone p h
    · left
      exact List.mem_singleton.mp h

/-- Existing keys survive a dict write. -/
theorem mem_keys_aset_of_mem {l : List (α × β)} {a : α} (k : α) (v : β)
    (h : a ∈ l.map Prod.fst) : a ∈ (aset l k v).map Prod.fst := by
  unfold aset
  obtain ⟨q, hq, rfl⟩ := List.mem_map.mp h
  by_cases hs : (alookup l k).isSome
  · rw [if_pos hs]
    simp only [List.map_map, List.mem_map, Function.comp]
    by_cases hk : q.1 = k
    · exact ⟨q, hq, by simp [hk]⟩
    · exact ⟨q, hq, by simp [hk]⟩
  · rw [if_neg hs]
    simp only [List.map_append, List.mem_append]
    exact Or.inl (List.mem_map.mpr ⟨q, hq, rfl⟩)

/-- The written key is a key of the updated dict. -/
theorem self_mem_keys_aset (l : List (α × β)) (k : α) (v : β) :
    k ∈ (aset l k v).map Prod.fst := by
  unfold aset
  by_cases hs : (alookup l k).isSome
  · rw [if_pos hs]
    have hmem := (alookup_isSome_iff l k).mp hs
    obtain ⟨q, hq, hqe⟩ := List.mem_map.mp hmem
    simp only [List.map_map, List.mem_map, Function.comp]
    exact ⟨q, hq, by simp [hqe]⟩
  · rw [if_neg hs]
    simp

/-- Key set of a dict after deletion. -/
theorem mem_keys_aremove (l : List (α × β)) (k : α) (a : α) :
    a ∈ (aremove l k).map Prod.fst ↔ a ∈ l.map Prod.fst ∧ a ≠ k := by
  unfold aremove
  simp only [List.mem_map, List.mem_filter]
  constructor
  · rintro ⟨q, ⟨hq, hk⟩, rfl⟩
    simp at hk
    exact ⟨⟨q, hq, rfl⟩, hk⟩
  · rintro ⟨⟨q, hq, rfl⟩, hk⟩
    exact ⟨q, ⟨hq, by simpa using hk⟩, rfl⟩

/-- Lookup in the updated image when the key was present. -/
theorem alookup_map_update (l : List (α × β)) (k : α) (v : β)
    (hs : (alookup l k).isSome = true) :
    alookup (l.map (fun p => if p.1 = k then (k, v) else p)) k = some v := by
  induction l with
  | nil => simp [alookup_nil] at hs
  | cons q t ih =>
    by_cases hk : q.1 = k
    · simp [List.map_cons, alookup_cons, hk]
    · have hs2 : (alookup t k).isSome = true := by
        simpa [alookup_cons, hk] using hs
      simp [List.map_cons, alookup_cons, hk, ih hs2]

/-- Lookup of a freshly appended key. -/
theorem alookup_append_self (l : List (α × β)) (k : α) (v : β)
    (hnone : alookup l k = none) :
    alookup (l ++ [(k, v)]) k = some v := by
  induction l with
  | nil => simp [alookup_cons]
  | cons q t ih =>
    rw [alookup_cons] at hnone
    by_cases hk : q.1 = k
    · simp [hk] at hnone
    · simp only [hk, if_false] at hnone
      simp [List.cons_append, alookup_cons, hk, ih hnone]

/-- Lookup after writing the same key. -/
theorem alookup_aset_self (l : List (α × β)) (k : α) (v : β) :
    alookup (aset l k v) k = some v := by
  unfold aset
  by_cases hs : (alookup l k).isSome
  · rw [if_pos hs]
    exact alookup_map_update l k v hs
  · rw [if_neg hs]
    have hnone : alookup l k = none := by
      cases hl : alookup l k
      · rfl
      · simp [hl] at hs
    exact alookup_append_self l k v hnone

/-- Members after a set add. -/
theorem mem_sadd {l : List α} {x u : α} (h : u ∈ sadd l x) : u = x ∨ u ∈ l := by
  unfold sadd at h
  by_cases hx : x ∈ l
  · simp [hx] at h
    right
    exact h
  · simp [hx] at h
    rcases h with h | h
    · right; exact h
    · left; exact h

/-- Members after a set discard. -/
theorem mem_sdiscard {l : List α} {x u : α} (h : u ∈ sdiscard l x) :
    u ∈ l ∧ u ≠ x := by
  unfold sdiscard at h
  simp only [List.mem_filter] at h
  exact ⟨h.1, by simpa using h.2⟩

end AssocLemmas

/-- Payload JSON serialisation round-trips through from_jsonstr. -/
theorem from_jsonstr_to_json (p : SystemNotificationPayload) :
    SystemNotificationPayload.from_jsonstr p.to_json = some p := by
  cases p
  rfl

/-! ## Claim C10 -/

/-- C10: the facade's priority normalisation maps every input - an
EventPriority member or a string in any letter case - to a valid member:
members pass through, a string naming a member (after uppercasing) maps to
that member, and any other string maps to NORMAL, so notification sending
never fails on a malformed priority name. -/
theorem C10_normalize_priority_total :
    (∀ p, normalize_priority (.enum p) = p) ∧
    (∀ s p, EventPriority.byName (pyUpper s) = some p →
      normalize_priority (.str s) = p) ∧
    (∀ s, EventPriority.byName (pyUpper s) = none →
      normalize_priority (.str s) = .NORMAL) ∧
    (∀ i, normalize_priority i ∈
      [EventPriority.LOW, EventPriority.NORMAL, EventPriority.HIGH, EventPriority.CRITICAL]) := by
  refine ⟨fun p => rfl, fun s p h => ?_, fun s h => ?_, fun i => ?_⟩
  · simp [normalize_priority, h]
  · simp [normalize_priority, h]
  · cases h : normalize_priority i <;> simp

/-- Witness instantiating C10 at concrete inputs: a case-mangled member name
and a malformed name. -/
theorem C10_witness :
    normalize_priority (.str "hIgH") = .HIGH ∧
    normalize_priority (.str "urgent") = .NORMAL := by
  exact ⟨C10_normalize_priority_total.2.1 "hIgH" .HIGH rfl,
         C10_normalize_priority_total.2.2.1 "urgent" rfl⟩

/-! ## Claim C8 -/

/-- C8: to_entity returns a row exactly when the event is deliverable (not
read, not expired) and None otherwise; from_entity, whenever it returns (the
payload-parse failure raises instead), returns an event exactly when the row
is deliverable and None otherwise. -/
theorem C8_conversion_iff_deliverable :
    (∀ (e : Event) (now : Time), (e.to_entity now).isSome = e.deliverable now) ∧
    (∀ (ent : EventEntity) (now : Time) (r : Option Event),
      Event.from_entity ent now = .ok r → r.isSome = ent.deliverable now) := by
  constructor
  · intro e now
    simp only [Event.to_entity, Event.deliverable]
    by_cases h : (e.is_read || e.isExpired now) = true
    · rcases Bool.or_eq_true_iff.mp h with h1 | h1 <;> simp [h, h1]
    · simp only [h, if_false]
      simp only [Bool.or_eq_true_iff, not_or] at h
      simp [Bool.not_eq_true] at h
      simp [h.1, h.2]
  · intro ent now r h
    simp only [Event.from_entity, EventEntity.deliverable] at *
    by_cases hd : (ent.is_read || ent.isExpired now) = true
    · simp only [hd, if_true] at h
      cases h
      rcases Bool.or_eq_true_iff.mp hd with h1 | h1 <;> simp [h1]
    · simp only [hd, if_false] at h
      simp only [Bool.or_eq_true_iff, not_or] at hd
      simp only [Bool.not_eq_true] at hd
      cases hp : SystemNotificationPayload.from_jsonstr ent.payload with
      | none => rw [hp] at h; cases h
      | some p => rw [hp] at h; cases h; simp [hd.1, hd.2]

/-- Witness instantiating C8 at a concrete deliverable row: from_entity
returns an event for it. -/
theorem C8_witness :
    ∃ r : Option Event,
      Event.from_entity
        { id := some 1, event_type := "SystemNotification",
          payload := [("title", "t"), ("message", "m")], target_userid := 42,
          priority := .NORMAL, is_read := false, created_at := 0,
          expired_at := none } 5 = .ok r ∧
      r.isSome = EventEntity.deliverable
        { id := some 1, event_type := "SystemNotification",
          payload := [("title", "t"), ("message", "m")], target_userid := 42,
          priority := .NORMAL, is_read := false, created_at := 0,
          expired_at := none } 5 := by
  exact ⟨_, rfl, C8_conversion_iff_deliverable.2 _ 5 _ rfl⟩

/-! ## Claim C7 -/

/-- C7: converting a deliverable event of the registered class to a store row
and reconstructing it yields an event agreeing on event_type, payload,
priority, target_userid, created_at and expired_at. -/
theorem C7_round_trip (e : Event) (now : Time)
    (htype : e.event_type = "SystemNotification")
    (hdel : e.deliverable now = true) :
    ∃ ent e2, e.to_entity now = some ent ∧
      Event.from_entity ent now = .ok (some e2) ∧
      e2.event_type = e.event_type ∧ e2.payload = e.payload ∧
      e2.priority = e.priority ∧ e2.target_userid = e.target_userid ∧
      e2.created_at = e.created_at ∧ e2.expired_at = e.expired_at := by
  simp only [Event.deliverable, Bool.and_eq_true, Bool.not_eq_true'] at hdel
  obtain ⟨hread, hexp⟩ := hdel
  have hto : e.to_entity now = some
      { id := none, event_type := e.event_type, payload := e.payload.to_json,
        target_userid := e.target_userid, priority := e.priority,
        is_read := e.is_read, created_at := e.created_at,
        expired_at := e.expired_at } := by
    simp [Event.to_entity, hread, hexp]
  have hfrom : Event.from_entity
      { id := none, event_type := e.event_type, payload := e.payload.to_json,
        target_userid := e.target_userid, priority := e.priority,
        is_read := e.is_read, created_at := e.created_at,
        expired_at := e.expired_at } now
      = .ok (some { Event.make e.target_userid e.priority e.expired_at e.payload now with
                    id := none, is_read := e.is_read,
                    created_at := e.created_at }) := by
    cases hEA : e.expired_at with
    | none =>
      simp [Event.from_entity, hread, EventEntity.isExpired, hEA, from_jsonstr_to_json]
    | some t =>
      have hnt : ¬ now > t := by
        simpa [Event.isExpired, hEA] using hexp
      simp [Event.from_entity, hread, EventEntity.isExpired, hEA,
        from_jsonstr_to_json, hnt]
  exact ⟨_, _, hto, hfrom, by simp [Event.make, htype], rfl, rfl, rfl, rfl, rfl⟩

/-- Witness instantiating C7 at a concrete deliverable event. -/
theorem C7_witness :
    (Event.make 42 .HIGH (some 9) ⟨"hello", "world"⟩ 3).event_type =
        "SystemNotification" ∧
    (Event.make 42 .HIGH (some 9) ⟨"hello", "world"⟩ 3).deliverable 7 = true ∧
    ∃ ent e2,
      (Event.make 42 .HIGH (some 9) ⟨"hello", "world"⟩ 3).to_entity 7 = some ent ∧
      Event.from_entity ent 7 = .ok (some e2) ∧
      e2.event_type = "SystemNotification" ∧
      e2.payload = ⟨"hello", "world"⟩ ∧ e2.priority = .HIGH ∧
      e2.target_userid = 42 ∧ e2.created_at = 3 ∧ e2.expired_at = some 9 := by
  refine ⟨rfl, by decide, ?_⟩
  obtain ⟨ent, e2, h1, h2, h3, h4, h5, h6, h7, h8⟩ :=
    C7_round_trip (Event.make 42 .HIGH (some 9) ⟨"hello", "world"⟩ 3) 7 rfl (by decide)
  exact ⟨ent, e2, h1, h2, h3, h4, h5, h6, h7, h8⟩

/-! ## Claim C6 -/

/-- Generic invariant of the drop-oldest write policy: folding writes over a
mailbox holding at most cap items leaves the last cap items of the combined
sequence. -/
theorem foldl_distributeWrite (cap : Nat) (hcap : 0 < cap) :
    ∀ (es : List QueueItem) (acc : Mailbox), acc.length ≤ cap →
      es.foldl (distributeWrite cap) acc =
        (acc ++ es).drop (acc.length + es.length - cap) := by
  intro es
  induction es with
  | nil =>
    intro acc hacc
    have h0 : acc.length - cap = 0 := by omega
    simp [h0]
  | cons e rest ih =>
    intro acc hacc
    simp only [List.foldl_cons]
    by_cases hlt : acc.length < cap
    · simp only [distributeWrite]
      rw [if_pos hlt]
      rw [ih (acc ++ [e]) (by simp; omega)]
      have h1 : (acc ++ [e]).length + rest.length - cap
          = acc.length + (e :: rest).length - cap := by
        simp
        omega
      have h2 : acc ++ [e] ++ rest = acc ++ e :: rest := by simp
      rw [h1, h2]
    · have hlen : acc.length = cap := le_antisymm hacc (le_of_not_lt hlt)
      simp only [distributeWrite]
      rw [if_neg hlt]
      have hne : acc ≠ [] := by
        intro h
        rw [h] at hlen
        simp at hlen
        omega
      obtain ⟨a, t, rfl⟩ := List.exists_cons_of_ne_nil hne
      have ht : t.length + 1 = cap := by simpa using hlen
      have hdw : (a :: t).drop 1 ++ [e] = t ++ [e] := by simp
      rw [hdw, ih (t ++ [e]) (by simp; omega)]
      have h1 : (t ++ [e]).length + rest.length - cap = rest.length := by
        simp
        omega
      have h2 : (a :: t).length + (e :: rest).length - cap = rest.length + 1 := by
        simp
        omega
      rw [h1, h2]
      have h3 : (a :: t) ++ e :: rest = a :: (t ++ e :: rest) := by simp
      rw [h3, List.drop_succ_cons]
      have h4 : t ++ [e] ++ rest = t ++ e :: rest := by simp
      rw [h4]

/-- C6: after max_events_per_stream + k writes through the distribution write
policy into one mailbox with no reader, the mailbox holds exactly the last
max_events_per_stream writes, in write order; the write never blocks. -/
theorem C6_mailbox_overflow (cap k : Nat) (hcap : 0 < cap)
    (es : List QueueItem) (hlen : es.length = cap + k) :
    es.foldl (distributeWrite cap) [] = es.drop k := by
  have h := foldl_distributeWrite cap hcap es [] (by simp)
  simpa [hlen] using h

/-- Witness instantiating C6 with capacity 2 and three writes: the mailbox
keeps the last two. -/
theorem C6_witness :
    [QueueItem.raw (RawEventMessage.make "tick" 1 [] "NORMAL" 0),
     QueueItem.raw (RawEventMessage.make "tick" 1 [] "NORMAL" 1),
     QueueItem.raw (RawEventMessage.make "tick" 1 [] "NORMAL" 2)].foldl
        (distributeWrite 2) [] =
      [QueueItem.raw (RawEventMessage.make "tick" 1 [] "NORMAL" 1),
       QueueItem.raw (RawEventMessage.make "tick" 1 [] "NORMAL" 2)] := by
  exact C6_mailbox_overflow 2 1 (by decide) _ rfl

/-! ## Claim C4 -/

/-- Subset invariant of the ConnectionManager: every user listed in a
per-event-type online set is a key of the user-connection map. -/
def ConnInv (s : ConnState) : Prop :=
  ∀ p ∈ s.eventtype_connection_users, ∀ uid ∈ p.2, uid ∈ s.connKeys

instance instDecidableConnInv (s : ConnState) : Decidable (ConnInv s) :=
  inferInstanceAs
    (Decidable (∀ p ∈ s.eventtype_connection_users, ∀ uid ∈ p.2, uid ∈ s.connKeys))

/-- States reachable from the initial ConnectionManager by its operations,
with a fixed max_connections_per_user. -/
inductive Reachable (max : Nat) : ConnState → Prop where
  | init : Reachable max ConnState.init
  | add (uid : Int) (stream : Mailbox) (et : String) (s : ConnState) :
      Reachable max s → Reachable max (add_connection max uid stream et s).2
  | remove (uid : Int) (sid : Nat) (et : String) (s : ConnState) :
      Reachable max s → Reachable max (remove_connection uid sid et s)
  | removeAll (uid : Int) (s : ConnState) :
      Reachable max s → Reachable max (remove_all_connections uid s)

/-- Keys other than the removed user survive _remove_connection_locked. -/
theorem removeConnectionLocked_keys (uid : Int) (sid : Nat) (et : String)
    (s : ConnState) (a : Int) (ha : a ∈ s.connKeys) (hne : a ≠ uid) :
    a ∈ (removeConnectionLocked uid sid et s).connKeys := by
  unfold removeConnectionLocked
  cases huc : alookup s.user_connections uid with
  | none =>
    simp only [huc, Option.getD_none, List.isEmpty_nil]
    rw [if_pos trivial]
    exact (mem_keys_aremove _ _ _).mpr ⟨ha, hne⟩
  | some conns =>
    simp only [huc, Option.getD_some]
    by_cases hin : conns ≠ [] ∧ (alookup conns sid).isSome
    · rw [if_pos hin]
      by_cases hpop :
          ((alookup (aset s.user_connections uid (aremove conns sid)) uid).getD []).isEmpty
      · rw [if_pos hpop]
        exact (mem_keys_aremove _ _ _).mpr ⟨mem_keys_aset_of_mem _ _ ha, hne⟩
      · rw [if_neg hpop]
        exact mem_keys_aset_of_mem _ _ ha
    · rw [if_neg hin]
      simp only [huc, Option.getD_some]
      by_cases hpop : conns.isEmpty
      · rw [if_pos hpop]
        exact (mem_keys_aremove _ _ _).mpr ⟨ha, hne⟩
      · rw [if_neg hpop]
        exact ha

/-- Online-set members after _remove_connection_locked come from the original
online sets. -/
theorem removeConnectionLocked_ets (uid : Int) (sid : Nat) (et : String)
    (s : ConnState) (p : String × List Int)
    (hp : p ∈ (removeConnectionLocked uid sid et s).eventtype_connection_users) :
    ∀ u ∈ p.2, ∃ q ∈ s.eventtype_connection_users, u ∈ q.2 := by
  intro u hu
  have hmain : p ∈ s.eventtype_connection_users ∨
      p ∈ etDiscard s.eventtype_connection_users et uid := by
    unfold removeConnectionLocked at hp
    cases huc : alookup s.user_connections uid with
    | none =>
      simp only [huc, Option.getD_none, List.isEmpty_nil] at hp
      rw [if_pos trivial] at hp
      exact Or.inr hp
    | some conns =>
      simp only [huc, Option.getD_some] at hp
      by_cases hin : conns ≠ [] ∧ (alookup conns sid).isSome
      · rw [if_pos hin] at hp
        by_cases hpop :
            ((alookup (aset s.user_connections uid (aremove conns sid)) uid).getD []).isEmpty
        · rw [if_pos hpop] at hp
          exact Or.inr hp
        · rw [if_neg hpop] at hp
          exact Or.inl hp
      · rw [if_neg hin] at hp
        simp only [huc, Option.getD_some] at hp
        by_cases hpop : conns.isEmpty
        · rw [if_pos hpop] at hp
          exact Or.inr hp
        · rw [if_neg hpop] at hp
          exact Or.inl hp
  rcases hmain with hp2 | hp2
  · exact ⟨p, hp2, hu⟩
  · unfold etDiscard at hp2
    rcases mem_aset hp2 with heq | ⟨hp3, _⟩
    · subst heq
      obtain ⟨huS, _⟩ := mem_sdiscard hu
      cases halo : alookup s.eventtype_connection_users et with
      | none => rw [halo] at huS; simp at huS
      | some S =>
        rw [halo] at huS
        exact ⟨(et, S), alookup_mem halo, huS⟩
    · exact ⟨p, hp3, hu⟩

/-- add_connection preserves the subset invariant. -/
theorem add_connection_inv (max : Nat) (uid : Int) (stream : Mailbox)
    (et : String) (s : ConnState) (hinv : ConnInv s) :
    ConnInv (add_connection max uid stream et s).2 := by
  have key : ∀ s1 : ConnState,
      (∀ p ∈ s1.eventtype_connection_users, ∀ u ∈ p.2, u = uid ∨ u ∈ s1.connKeys) →
      ConnInv
        { user_connections :=
            aset s1.user_connections uid
              (aset ((alookup s1.user_connections uid).getD []) s1.next_sid stream)
          eventtype_connection_users := etAdd s1.eventtype_connection_users et uid
          users_connect_time := aset s1.users_connect_time s1.next_sid s1.clock
          next_sid := s1.next_sid + 1
          clock := s1.clock + 1 } := by
    intro s1 hs1 p hp u hu
    simp only [ConnState.connKeys] at *
    have hfromKeys : u ∈ s1.user_connections.map Prod.fst →
        u ∈ (aset s1.user_connections uid
          (aset ((alookup s1.user_connections uid).getD []) s1.next_sid stream)).map
            Prod.fst :=
      fun h => mem_keys_aset_of_mem _ _ h
    have hself : uid ∈ (aset s1.user_connections uid
        (aset ((alookup s1.user_connections uid).getD []) s1.next_sid stream)).map
          Prod.fst :=
      self_mem_keys_aset _ _ _
    unfold etAdd at hp
    rcases mem_aset hp with heq | ⟨hp2, _⟩
    · subst heq
      rcases mem_sadd hu with rfl | huS
    -- the second pattern keeps u in the original per-type set
      · exact hself
      · cases halo : alookup s1.eventtype_connection_users et with
        | none => rw [halo] at huS; simp at huS
        | some S =>
          rw [halo] at huS
          rcases hs1 (et, S) (alookup_mem halo) u huS with rfl | hK
          · exact hself
          · exact hfromKeys hK
    · rcases hs1 p hp2 u hu with rfl | hK
      · exact hself
      · exact hfromKeys hK
  unfold add_connection
  by_cases hev : max ≤ ((alookup s.user_connections uid).getD []).length
  · simp only [hev, if_true]
    cases hold : oldestSid s.users_connect_time
        ((alookup s.user_connections uid).getD []) with
    | none =>
      simp only
      exact key s (fun p hp u hu => Or.inr (hinv p hp u hu))
    | some old =>
      simp only
      refine key (removeConnectionLocked uid old et s) ?_
      intro p hp u hu
      by_cases hu2 : u = uid
      · exact Or.inl hu2
      · obtain ⟨q, hq, huq⟩ := removeConnectionLocked_ets uid old et s p hp u hu
        exact Or.inr (removeConnectionLocked_keys uid old et s u (hinv q hq u huq) hu2)
  · simp only [hev, if_false]
    exact key s (fun p hp u hu => Or.inr (hinv p hp u hu))

/-- remove_all_connections preserves the subset invariant. -/
theorem remove_all_connections_inv (uid : Int) (s : ConnState) (hinv : ConnInv s) :
    ConnInv (remove_all_connections uid s) := by
  unfold remove_all_connections
  cases huc : alookup s.user_connections uid with
  | none => exact hinv
  | some conns =>
    intro p hp u hu
    simp only [ConnState.connKeys] at *
    obtain ⟨q, hq, rfl⟩ := List.mem_map.mp hp
    obtain ⟨huq, hne⟩ := mem_sdiscard hu
    exact (mem_keys_aremove _ _ _).mpr ⟨hinv q hq u huq, hne⟩

/-- Invariant restoration in the branch of _remove_connection_locked that pops
the user, provided the user occurs in no online set other than the one passed. -/
theorem pop_case_inv (uid : Int) (et : String) (s : ConnState)
    (uc2 : List (Int × List (Nat × Mailbox))) (hinv : ConnInv s)
    (hall : ∀ p ∈ s.eventtype_connection_users, uid ∈ p.2 → p.1 = et)
    (hkeys : ∀ a, a ∈ s.connKeys → a ≠ uid → a ∈ uc2.map Prod.fst) :
    ∀ p ∈ etDiscard s.eventtype_connection_users et uid, ∀ u ∈ p.2,
      u ∈ uc2.map Prod.fst := by
  intro p hp u hu
  unfold etDiscard at hp
  rcases mem_aset hp with heq | ⟨hp2, hpne⟩
  · subst heq
    obtain ⟨huS, hune⟩ := mem_sdiscard hu
    cases halo : alookup s.eventtype_connection_users et with
    | none => rw [halo] at huS; simp at huS
    | some S =>
      rw [halo] at huS
      exact hkeys u (hinv (et, S) (alookup_mem halo) u huS) hune
  · have hune : u ≠ uid := by
      intro h
      subst h
      exact hpne (hall p hp2 hu)
    exact hkeys u (hinv p hp2 u hu) hune

/-- remove_connection preserves the subset invariant provided the removal does
not strand the user: either it is not the user's last connection, or the user
appears in no online set other than the event type passed. -/
theorem remove_connection_inv (uid : Int) (sid : Nat) (et : String)
    (s : ConnState) (hinv : ConnInv s)
    (hcond : aremove ((alookup s.user_connections uid).getD []) sid ≠ [] ∨
      ∀ p ∈ s.eventtype_connection_users, uid ∈ p.2 → p.1 = et) :
    ConnInv (remove_connection uid sid et s) := by
  unfold remove_connection removeConnectionLocked
  cases huc : alookup s.user_connections uid with
  | none =>
    simp only [huc, Option.getD_none, List.isEmpty_nil]
    have hall : ∀ p ∈ s.eventtype_connection_users, uid ∈ p.2 → p.1 = et := by
      rcases hcond with h | h
      · rw [huc] at h
        simp [aremove] at h
      · exact h
    rw [if_pos trivial]
    intro p hp u hu
    exact pop_case_inv uid et s _ hinv hall
      (fun a ha hne => (mem_keys_aremove _ _ _).mpr ⟨ha, hne⟩) p hp u hu
  | some conns =>
    simp only [huc, Option.getD_some]
    by_cases hin : conns ≠ [] ∧ (alookup conns sid).isSome
    · rw [if_pos hin]
      by_cases hpop :
          ((alookup (aset s.user_connections uid (aremove conns sid)) uid).getD []).isEmpty
      · rw [if_pos hpop]
        have hall : ∀ p ∈ s.eventtype_connection_users, uid ∈ p.2 → p.1 = et := by
          rcases hcond with h | h
          · rw [alookup_aset_self] at hpop
            rw [huc] at h
            simp only [Option.getD_some] at h hpop
            exact absurd (List.isEmpty_iff.mp hpop) h
          · exact h
        intro p hp u hu
        exact pop_case_inv uid et s _ hinv hall
          (fun a ha hne =>
            (mem_keys_aremove _ _ _).mpr ⟨mem_keys_aset_of_mem _ _ ha, hne⟩) p hp u hu
      · rw [if_neg hpop]
        intro p hp u hu
        exact mem_keys_aset_of_mem _ _ (hinv p hp u hu)
    · rw [if_neg hin]
      simp only [huc, Option.getD_some]
      by_cases hpop : conns.isEmpty
      · rw [if_pos hpop]
        have hconns : conns = [] := List.isEmpty_iff.mp hpop
        have hall : ∀ p ∈ s.eventtype_connection_users, uid ∈ p.2 → p.1 = et := by
          rcases hcond with h | h
          · rw [huc] at h
            simp only [Option.getD_some, hconns] at h
            simp [aremove] at h
          · exact h
        intro p hp u hu
        exact pop_case_inv uid et s _ hinv hall
          (fun a ha hne => (mem_keys_aremove _ _ _).mpr ⟨ha, hne⟩) p hp u hu
      · rw [if_neg hpop]
        exact hinv

/-- State reached by: user 1 connects for event type X, connects for event
type Y, then disconnects the X stream and finally the Y stream. -/
def c4Bad : ConnState :=
  remove_connection 1 1 "Y"
    (remove_connection 1 0 "X"
      (add_connection 10 1 [] "Y" (add_connection 10 1 [] "X" ConnState.init).2).2)

/-- C4 counterexample: a reachable state violating the subset invariant.
Removing the user's last connection (registered under event type Y) discards
the user from Y's online set only, stranding user 1 in X's online set while
the user-connection map no longer has the key - so remove_connection does not
preserve the invariant as the claim states. -/
theorem C4_counterexample : Reachable 10 c4Bad ∧ ¬ ConnInv c4Bad := by
  constructor
  · exact .remove 1 1 "Y" _ (.remove 1 0 "X" _
      (.add 1 [] "Y" _ (.add 1 [] "X" _ .init)))
  · decide

/-- C4 amended: add_connection and remove_all_connections always preserve the
subset invariant; remove_connection preserves it provided the removed stream
is not the user's last connection or the user appears in no online set other
than the event type passed - without that proviso, removing the last
connection strands the user id in the other event types' online sets. -/
theorem C4_amended_subset_invariant (s : ConnState) (hinv : ConnInv s) :
    (∀ max uid stream et, ConnInv (add_connection max uid stream et s).2) ∧
    (∀ uid, ConnInv (remove_all_connections uid s)) ∧
    (∀ uid sid et,
      (aremove ((alookup s.user_connections uid).getD []) sid ≠ [] ∨
        ∀ p ∈ s.eventtype_connection_users, uid ∈ p.2 → p.1 = et) →
      ConnInv (remove_connection uid sid et s)) :=
  ⟨fun max uid stream et => add_connection_inv max uid stream et s hinv,
   fun uid => remove_all_connections_inv uid s hinv,
   fun uid sid et hcond => remove_connection_inv uid sid et s hinv hcond⟩

/-- Witness instantiating the amended C4 on a concrete state with one
connection for user 1. -/
theorem C4_witness :
    ConnInv (add_connection 10 1 [] "X" ConnState.init).2 ∧
    ConnInv (remove_all_connections 1 (add_connection 10 1 [] "X" ConnState.init).2) ∧
    ConnInv (remove_connection 1 0 "X" (add_connection 10 1 [] "X" ConnState.init).2) := by
  have h0 := C4_amended_subset_invariant ConnState.init (by decide)
  have h1 := C4_amended_subset_invariant (add_connection 10 1 [] "X" ConnState.init).2
    (h0.1 10 1 [] "X")
  exact ⟨h0.1 10 1 [] "X", h1.2.1 1, h1.2.2 1 0 "X" (Or.inr (by decide))⟩

/-! ## Claim C5 -/

/-- List of pairs (i, g i) for i in the interval [a, a+b). -/
def rangeMap {β : Type} (g : Nat → β) (a b : Nat) : List (Nat × β) :=
  (List.range' a b).map (fun i => (i, g i))

theorem rangeMap_zero {β : Type} (g : Nat → β) (a : Nat) : rangeMap g a 0 = [] := rfl

theorem rangeMap_cons {β : Type} (g : Nat → β) (a b : Nat) :
    rangeMap g a (b + 1) = (a, g a) :: rangeMap g (a + 1) b := by
  unfold rangeMap
  rw [List.range'_succ]
  rfl

theorem rangeMap_concat {β : Type} (g : Nat → β) (a b : Nat) :
    rangeMap g a (b + 1) = rangeMap g a b ++ [(a + b, g (a + b))] := by
  unfold rangeMap
  rw [List.range'_concat]
  simp

theorem rangeMap_length {β : Type} (g : Nat → β) (a b : Nat) :
    (rangeMap g a b).length = b := by
  simp [rangeMap]

theorem alookup_rangeMap {β : Type} (g : Nat → β) (b : Nat) :
    ∀ a j, alookup (rangeMap g a b) j
      = if a ≤ j ∧ j < a + b then some (g j) else none := by
  induction b with
  | zero =>
    intro a j
    rw [rangeMap_zero, alookup_nil, if_neg (by omega)]
  | succ b ih =>
    intro a j
    rw [rangeMap_cons, alookup_cons]
    by_cases hj : a = j
    · subst hj
      rw [if_pos rfl, if_pos (by omega)]
    · rw [if_neg hj, ih (a + 1) j]
      by_cases h2 : a + 1 ≤ j ∧ j < a + 1 + b
      · rw [if_pos h2, if_pos (by omega)]
      · rw [if_neg h2, if_neg (by omega)]

theorem mem_rangeMap {β : Type} {g : Nat → β} {a b : Nat} {p : Nat × β}
    (hp : p ∈ rangeMap g a b) : a ≤ p.1 ∧ p.1 < a + b := by
  unfold rangeMap at hp
  obtain ⟨i, hi, rfl⟩ := List.mem_map.mp hp
  obtain ⟨t, ht, rfl⟩ := List.mem_range'.mp hi
  constructor <;> simp <;> omega

theorem aremove_rangeMap_head {β : Type} (g : Nat → β) (a b : Nat) :
    aremove (rangeMap g a (b + 1)) a = rangeMap g (a + 1) b := by
  rw [rangeMap_cons]
  unfold aremove
  rw [List.filter_cons]
  have h1 : (decide ((a, g a).1 ≠ a)) = false := by simp
  rw [h1]
  simp only [Bool.false_eq_true, if_false]
  apply List.filter_eq_self.mpr
  intro p hp
  have := mem_rangeMap hp
  simp only [decide_eq_true_eq]
  omega

/-- Writing into the empty dict appends. -/
theorem aset_nil {α β : Type} [DecidableEq α] (k : α) (v : β) :
    aset ([] : List (α × β)) k v = [(k, v)] := by
  simp [aset, alookup_nil]

/-- Writing an existing singleton key overwrites in place. -/
theorem aset_singleton_self {α β : Type} [DecidableEq α] (k : α) (w v : β) :
    aset [(k, w)] k v = [(k, v)] := by
  simp [aset, alookup_cons]

/-- Writing a fresh key appends. -/
theorem aset_fresh {α β : Type} [DecidableEq α] {l : List (α × β)} {k : α}
    (v : β) (h : alookup l k = none) : aset l k v = l ++ [(k, v)] := by
  unfold aset
  rw [h]
  rfl

/-- A fold keeping the minimum never leaves an element smaller than all others. -/
theorem foldl_min_const (times : List (Nat × Nat)) (sid : Nat)
    (l : List (Nat × Mailbox))
    (h : ∀ p ∈ l, connTimeKey times sid < connTimeKey times p.1) :
    l.foldl
      (fun best p => if connTimeKey times p.1 < connTimeKey times best then p.1 else best)
      sid = sid := by
  induction l with
  | nil => rfl
  | cons q t ih =>
    simp only [List.foldl_cons]
    rw [if_neg (Nat.lt_asymm (h q (List.mem_cons_self q t)))]
    exact ih (fun p hp => h p (List.mem_cons_of_mem _ hp))

/-- The mailboxes a user holds after n single-user admissions: the last
min(n, max) stream ids with their streams. -/
def window (max : Nat) (f : Nat → Mailbox) (n : Nat) : List (Nat × Mailbox) :=
  rangeMap f (n - max) (min n max)

/-- The matching connect-time table: stream id i was admitted at logical
time i. -/
def windowTimes (max n : Nat) : List (Nat × Nat) :=
  rangeMap id (n - max) (min n max)

/-- First element of a nonempty rangeMap. -/
theorem rangeMap_eq_cons {β : Type} (g : Nat → β) (a b : Nat) (hb : 0 < b) :
    rangeMap g a b = (a, g a) :: rangeMap g (a + 1) (b - 1) := by
  cases b with
  | zero => omega
  | succ b =>
    rw [rangeMap_cons]
    simp

/-- Eviction picks the head of the window: the stream with the smallest
connect time. -/
theorem oldestSid_window (max n : Nat) (hmax : 0 < max) (hle : max ≤ n)
    (f : Nat → Mailbox) :
    oldestSid (windowTimes max n) (window max f n) = some (n - max) := by
  have hmin : min n max = max := Nat.min_eq_right hle
  have hw : window max f n
      = (n - max, f (n - max)) :: rangeMap f (n - max + 1) (max - 1) := by
    unfold window
    rw [hmin]
    exact rangeMap_eq_cons f (n - max) max hmax
  have hkey : ∀ j, n - max ≤ j → j < n → connTimeKey (windowTimes max n) j = j := by
    intro j hj1 hj2
    unfold connTimeKey windowTimes
    rw [hmin, alookup_rangeMap]
    rw [if_pos (by omega)]
    rfl
  rw [hw]
  simp only [oldestSid]
  congr 1
  apply foldl_min_const
  intro p hp
  obtain ⟨h1, h2⟩ := mem_rangeMap hp
  rw [hkey (n - max) le_rfl (by omega), hkey p.1 (by omega) (by omega)]
  omega

/-- The n single-user admissions scenario: user uid opens streams f 0 .. f
(n-1) (event types ets 0 .. ets (n-1)) starting from the initial state. -/
def addN (max : Nat) (uid : Int) (f : Nat → Mailbox) (ets : Nat → String) :
    Nat → ConnState
  | 0 => ConnState.init
  | n + 1 => (add_connection max uid (f n) (ets n) (addN max uid f ets n)).2

/-- Last element of a nonempty rangeMap. -/
theorem rangeMap_eq_concat {β : Type} (g : Nat → β) (a b : Nat) (hb : 0 < b) :
    rangeMap g a b = rangeMap g a (b - 1) ++ [(a + (b - 1), g (a + (b - 1)))] := by
  cases b with
  | zero => omega
  | succ b =>
    rw [rangeMap_concat]
    simp

/-- Deleting the head of a nonempty rangeMap. -/
theorem aremove_rangeMap_head2 {β : Type} (g : Nat → β) (a b : Nat) (hb : 0 < b) :
    aremove (rangeMap g a b) a = rangeMap g (a + 1) (b - 1) := by
  cases b with
  | zero => omega
  | succ b =>
    rw [aremove_rangeMap_head]
    simp

theorem window_length (max : Nat) (f : Nat → Mailbox) (n : Nat) :
    (window max f n).length = min n max := by
  unfold window
  exact rangeMap_length f _ _

/-- Effect of the eviction call inside add_connection on the single-user
window state: the oldest stream and its connect time go away; when it was the
user's only stream (max = 1) the user is popped and discarded from the passed
event type's online set. -/
theorem removeConnectionLocked_window (max n : Nat) (hmax : 0 < max)
    (hle : max ≤ n) (uid : Int) (et : String) (f : Nat → Mailbox)
    (ets0 : List (String × List Int)) :
    removeConnectionLocked uid (n - max) et
      { user_connections := [(uid, window max f n)]
        eventtype_connection_users := ets0
        users_connect_time := windowTimes max n
        next_sid := n
        clock := n }
      = if max = 1 then
          { user_connections := []
            eventtype_connection_users := etDiscard ets0 et uid
            users_connect_time := rangeMap id (n - max + 1) (max - 1)
            next_sid := n
            clock := n }
        else
          { user_connections := [(uid, rangeMap f (n - max + 1) (max - 1))]
            eventtype_connection_users := ets0
            users_connect_time := rangeMap id (n - max + 1) (max - 1)
            next_sid := n
            clock := n } := by
  have hmin : min n max = max := Nat.min_eq_right hle
  have hw : window max f n
      = (n - max, f (n - max)) :: rangeMap f (n - max + 1) (max - 1) := by
    unfold window
    rw [hmin]
    exact rangeMap_eq_cons f (n - max) max hmax
  have hsing : alookup [(uid, window max f n)] uid = some (window max f n) := by
    rw [alookup_cons]
    simp
  have hwr : aremove (window max f n) (n - max)
      = rangeMap f (n - max + 1) (max - 1) := by
    unfold window
    rw [hmin]
    exact aremove_rangeMap_head2 f (n - max) max hmax
  have hwrT : aremove (windowTimes max n) (n - max)
      = rangeMap id (n - max + 1) (max - 1) := by
    unfold windowTimes
    rw [hmin]
    exact aremove_rangeMap_head2 id (n - max) max hmax
  have hcond : window max f n ≠ [] ∧ (alookup (window max f n) (n - max)).isSome := by
    constructor
    · rw [hw]
      simp
    · unfold window
      rw [hmin, alookup_rangeMap, if_pos (by omega)]
      rfl
  simp only [removeConnectionLocked, hsing]
  rw [if_pos hcond]
  simp only [hwr, hwrT, aset_singleton_self]
  have hlook : alookup [(uid, rangeMap f (n - max + 1) (max - 1))] uid
      = some (rangeMap f (n - max + 1) (max - 1)) := by
    rw [alookup_cons]
    simp
  simp only [hlook, Option.getD_some]
  by_cases hm1 : max = 1
  · have hR : rangeMap f (n - max + 1) (max - 1) = [] := by
      rw [hm1]
      rfl
    rw [if_pos hm1]
    rw [hR]
    rw [if_pos (by simp)]
    simp [aremove]
  · have hRne : rangeMap f (n - max + 1) (max - 1) ≠ [] := by
      intro h
      have hl := rangeMap_length f (n - max + 1) (max - 1)
      rw [h] at hl
      simp at hl
      omega
    rw [if_neg hm1]
    rw [if_neg (by
      intro hc
      exact hRne (List.isEmpty_iff.mp hc))]

/-- One admission advances the single-user window by one stream id. -/
theorem add_connection_step (max : Nat) (hmax : 0 < max) (uid : Int) (et : String)
    (f : Nat → Mailbox) (n : Nat) (ets0 : List (String × List Int)) :
    ∃ ets1,
      (add_connection max uid (f n) et
        { user_connections := if n = 0 then [] else [(uid, window max f n)]
          eventtype_connection_users := ets0
          users_connect_time := windowTimes max n
          next_sid := n
          clock := n }).2
      = { user_connections := [(uid, window max f (n + 1))]
          eventtype_connection_users := ets1
          users_connect_time := windowTimes max (n + 1)
          next_sid := n + 1
          clock := n + 1 } := by
  by_cases hn0 : n = 0
  · subst hn0
    refine ⟨etAdd ets0 et uid, ?_⟩
    have hT0 : windowTimes max 0 = [] := by
      unfold windowTimes
      rw [Nat.zero_sub, Nat.zero_min, rangeMap_zero]
    have hw1 : window max f 1 = [(0, f 0)] := by
      unfold window
      rw [show (1 : Nat) - max = 0 from by omega, show min 1 max = 1 from by omega]
      rfl
    have ht1 : windowTimes max 1 = [(0, 0)] := by
      unfold windowTimes
      rw [show (1 : Nat) - max = 0 from by omega, show min 1 max = 1 from by omega]
      rfl
    rw [if_pos rfl, hT0, hw1, ht1]
    simp only [add_connection, alookup_nil, Option.getD_none, List.length_nil]
    rw [if_neg (by omega)]
    simp only [alookup_nil, Option.getD_none, aset_nil]
  · rw [if_neg hn0]
    have hsing : alookup [(uid, window max f n)] uid = some (window max f n) := by
      rw [alookup_cons]
      simp
    by_cases hle : max ≤ n
    · by_cases hm1 : max = 1
      · refine ⟨etAdd (etDiscard ets0 et uid) et uid, ?_⟩
        simp only [add_connection, hsing, Option.getD_some, window_length]
        rw [if_pos (by omega)]
        rw [oldestSid_window max n hmax hle f]
        dsimp only
        rw [removeConnectionLocked_window max n hmax hle uid et f ets0]
        rw [if_pos hm1]
        have hR0 : rangeMap id (n - max + 1) (max - 1) = [] := by
          rw [hm1]
          rfl
        rw [hR0]
        simp only [alookup_nil, Option.getD_none, aset_nil]
        have hw1 : window max f (n + 1) = [(n, f n)] := by
          unfold window
          rw [show n + 1 - max = n from by omega, show min (n + 1) max = 1 from by omega]
          rfl
        have ht1 : windowTimes max (n + 1) = [(n, n)] := by
          unfold windowTimes
          rw [show n + 1 - max = n from by omega, show min (n + 1) max = 1 from by omega]
          rfl
        rw [hw1, ht1]
      · refine ⟨etAdd ets0 et uid, ?_⟩
        simp only [add_connection, hsing, Option.getD_some, window_length]
        rw [if_pos (by omega)]
        rw [oldestSid_window max n hmax hle f]
        dsimp only
        rw [removeConnectionLocked_window max n hmax hle uid et f ets0]
        rw [if_neg hm1]
        have hlookR : alookup [(uid, rangeMap f (n - max + 1) (max - 1))] uid
            = some (rangeMap f (n - max + 1) (max - 1)) := by
          rw [alookup_cons]
          simp
        simp only [hlookR, Option.getD_some]
        have hfreshR : alookup (rangeMap f (n - max + 1) (max - 1)) n = none := by
          rw [alookup_rangeMap]
          rw [if_neg (by omega)]
        have hfreshT : alookup (rangeMap id (n - max + 1) (max - 1)) n = none := by
          rw [alookup_rangeMap]
          rw [if_neg (by omega)]
        rw [aset_fresh (f n) hfreshR, aset_fresh n hfreshT, aset_singleton_self]
        have hwS : window max f (n + 1)
            = rangeMap f (n - max + 1) (max - 1) ++ [(n, f n)] := by
          unfold window
          rw [show n + 1 - max = n - max + 1 from by omega,
            show min (n + 1) max = max from by omega]
          rw [rangeMap_eq_concat f _ max hmax]
          rw [show n - max + 1 + (max - 1) = n from by omega]
        have htS : windowTimes max (n + 1)
            = rangeMap id (n - max + 1) (max - 1) ++ [(n, n)] := by
          unfold windowTimes
          rw [show n + 1 - max = n - max + 1 from by omega,
            show min (n + 1) max = max from by omega]
          rw [rangeMap_eq_concat id _ max hmax]
          rw [show n - max + 1 + (max - 1) = n from by omega]
          rfl
        rw [hwS, htS]
    · refine ⟨etAdd ets0 et uid, ?_⟩
      simp only [add_connection, hsing, Option.getD_some, window_length]
      rw [if_neg (by omega)]
      dsimp only
      simp only [hsing, Option.getD_some]
      have hfreshW : alookup (window max f n) n = none := by
        unfold window
        rw [alookup_rangeMap]
        rw [if_neg (by omega)]
      have hfreshT2 : alookup (windowTimes max n) n = none := by
        unfold windowTimes
        rw [alookup_rangeMap]
        rw [if_neg (by omega)]
      rw [aset_fresh (f n) hfreshW, aset_fresh n hfreshT2, aset_singleton_self]
      have hwS : window max f (n + 1) = window max f n ++ [(n, f n)] := by
        unfold window
        rw [show n + 1 - max = 0 from by omega, show min (n + 1) max = n + 1 from by omega,
          show n - max = 0 from by omega, show min n max = n from by omega]
        rw [rangeMap_concat]
        simp
      have htS2 : windowTimes max (n + 1) = windowTimes max n ++ [(n, n)] := by
        unfold windowTimes
        rw [show n + 1 - max = 0 from by omega, show min (n + 1) max = n + 1 from by omega,
          show n - max = 0 from by omega, show min n max = n from by omega]
        rw [rangeMap_concat]
        simp
      rw [hwS, htS2]

/-- State characterisation after n single-user admissions. -/
theorem addN_char (max : Nat) (hmax : 0 < max) (uid : Int) (f : Nat → Mailbox)
    (ets : Nat → String) :
    ∀ n, ∃ ets1,
      addN max uid f ets n
        = { user_connections := if n = 0 then [] else [(uid, window max f n)]
            eventtype_connection_users := ets1
            users_connect_time := windowTimes max n
            next_sid := n
            clock := n } := by
  intro n
  induction n with
  | zero =>
    refine ⟨[], ?_⟩
    have hT0 : windowTimes max 0 = [] := by
      unfold windowTimes
      rw [Nat.zero_sub, Nat.zero_min, rangeMap_zero]
    rw [if_pos rfl, hT0]
    rfl
  | succ n ih =>
    obtain ⟨ets1, hst⟩ := ih
    obtain ⟨ets2, hstep⟩ := add_connection_step max hmax uid (ets n) f n ets1
    refine ⟨ets2, ?_⟩
    show (add_connection max uid (f n) (ets n) (addN max uid f ets n)).2 = _
    rw [hst, hstep]
    rw [if_neg (Nat.succ_ne_zero n)]

/-- C5: starting from the initial state, after max_connections_per_user + k
single-user admissions exactly max mailboxes remain - the ones admitted last
(stream ids k .. max+k-1, in admission order, with their connect times) - so
the k evicted mailboxes are exactly the k oldest by admission time; and a
user never holds more than max mailboxes after any number of admissions. -/
theorem C5_connection_cap (max k : Nat) (hmax : 0 < max) (uid : Int)
    (f : Nat → Mailbox) (ets : Nat → String) :
    (∀ n, ((alookup (addN max uid f ets n).user_connections uid).getD []).length ≤ max) ∧
    ((alookup (addN max uid f ets (max + k)).user_connections uid).getD []
        = (List.range' k max).map (fun i => (i, f i))) ∧
    ((addN max uid f ets (max + k)).users_connect_time
        = (List.range' k max).map (fun i => (i, i))) ∧
    (∀ i j, i < max + k → i ∉ List.range' k max → j ∈ List.range' k max → i < j) := by
  refine ⟨?_, ?_, ?_, ?_⟩
  · intro n
    obtain ⟨ets1, hst⟩ := addN_char max hmax uid f ets n
    rw [hst]
    by_cases hn0 : n = 0
    · rw [if_pos hn0]
      simp [alookup_nil]
    · rw [if_neg hn0]
      have hsing : alookup [(uid, window max f n)] uid = some (window max f n) := by
        rw [alookup_cons]
        simp
      rw [hsing, Option.getD_some, window_length]
      omega
  · obtain ⟨ets1, hst⟩ := addN_char max hmax uid f ets (max + k)
    rw [hst, if_neg (by omega)]
    have hsing : alookup [(uid, window max f (max + k))] uid
        = some (window max f (max + k)) := by
      rw [alookup_cons]
      simp
    rw [hsing, Option.getD_some]
    unfold window rangeMap
    rw [show max + k - max = k from by omega, show min (max + k) max = max from by omega]
  · obtain ⟨ets1, hst⟩ := addN_char max hmax uid f ets (max + k)
    rw [hst]
    unfold windowTimes rangeMap
    rw [show max + k - max = k from by omega, show min (max + k) max = max from by omega]
    rfl
  · intro i j hi hnotin hj
    obtain ⟨t, ht, rfl⟩ := List.mem_range'.mp hj
    by_cases hik : i < k
    · omega
    · exact absurd (List.mem_range'.mpr ⟨i - k, by omega, by omega⟩) hnotin

/-- Witness instantiating C5 with cap 2 and 3 admissions: streams 1 and 2
survive, stream 0 (the oldest) was evicted. -/
theorem C5_witness :
    ((alookup (addN 2 7 (fun _ => []) (fun _ => "X") 3).user_connections 7).getD []
        = [(1, []), (2, [])]) ∧
    ((alookup (addN 2 7 (fun _ => []) (fun _ => "X") 5).user_connections 7).getD []).length
        ≤ 2 := by
  have h := C5_connection_cap 2 1 (by decide) 7 (fun _ => []) (fun _ => "X")
  constructor
  · rw [h.2.1]
    rfl
  · exact h.1 5

/-! ## Claim C9 -/

/-- C9: send_raw_event never touches the store; an offline target returns
false with the whole state (in particular the central queue) unchanged; an
online target enqueues non-blockingly, and a full queue returns false (after
a warning log) leaving the state unchanged. -/
theorem C9_send_raw_event (s : MgrState) (now : Time) (et : String) (uid : Int)
    (payload : PayloadJson) (pr : String) :
    ((send_raw_event s now et uid payload pr).2.store = s.store) ∧
    (uid ∉ s.conn.connKeys → send_raw_event s now et uid payload pr = (false, s)) ∧
    (uid ∈ s.conn.connKeys → s.max_queue ≤ s.event_queue.length →
      send_raw_event s now et uid payload pr = (false, s)) ∧
    (uid ∈ s.conn.connKeys → s.event_queue.length < s.max_queue →
      send_raw_event s now et uid payload pr =
        (true, { s with event_queue :=
          s.event_queue ++ [.raw (RawEventMessage.make et uid payload pr now)] })) := by
  refine ⟨?_, ?_, ?_, ?_⟩
  · by_cases hm : uid ∉ s.conn.connKeys
    · simp [send_raw_event, hm]
    · by_cases hq : s.event_queue.length < s.max_queue <;>
        simp [send_raw_event, hm, hq]
  · intro hm
    simp [send_raw_event, hm]
  · intro hm hq
    simp [send_raw_event, hm, Nat.not_lt_of_le hq]
  · intro hm hq
    simp [send_raw_event, hm, hq]

/-- Witness instantiating C9: a concrete state where user 5 is offline, so the
call returns false and changes nothing. -/
theorem C9_witness :
    (5 : Int) ∉ ConnState.init.connKeys ∧
    send_raw_event
      { conn := ConnState.init, max_connections := 10, event_queue := [],
        max_queue := 1000, max_events_per_stream := 100, store := [],
        next_id := 0, is_shutting_down := false,
        registered := ["SystemNotification"] } 0 "tick" 5 [] "NORMAL"
      = (false,
        { conn := ConnState.init, max_connections := 10, event_queue := [],
          max_queue := 1000, max_events_per_stream := 100, store := [],
          next_id := 0, is_shutting_down := false,
          registered := ["SystemNotification"] }) := by
  exact ⟨by decide,
    (C9_send_raw_event _ 0 "tick" 5 [] "NORMAL").2.1 (by decide)⟩

/-! ## Claim C1 -/

/-- Connection state with user 9 holding one live stream. -/
def c1Conn : ConnState :=
  { user_connections := [(9, [(0, [])])]
    eventtype_connection_users := [("SystemNotification", [9])]
    users_connect_time := [(0, 0)]
    next_sid := 1
    clock := 1 }

/-- Manager state for C1: user 9 online, central queue of capacity 1 already
full with one earlier event (already persisted as row 0). -/
def c1State : MgrState :=
  { conn := c1Conn
    max_connections := 10
    event_queue := [.ev { Event.make 9 .NORMAL none ⟨"old", "news"⟩ 0 with id := some 0 }]
    max_queue := 1
    max_events_per_stream := 100
    store := [{ id := some 0, event_type := "SystemNotification",
                payload := [("title", "old"), ("message", "news")],
                target_userid := 9, priority := .NORMAL, is_read := false,
                created_at := 0, expired_at := none }]
    next_id := 1
    is_shutting_down := false
    registered := ["SystemNotification"] }

/-- C1 (code bug): with the target user online and the central queue full,
create_event persists the row and then calls the blocking _put_event, which
suspends forever instead of raising queue.Full - so the call blocks rather
than logging, dropping and returning None; the except-Full branch of the
source is dead code.  The just-persisted row is in the store, unread. -/
theorem C1_full_queue_put_blocks :
    (create_event c1State 5 "SystemNotification" 9 .NORMAL none ⟨"hi", "there"⟩).1
        = .blocked ∧
    (create_event c1State 5 "SystemNotification" 9 .NORMAL none ⟨"hi", "there"⟩).1
        ≠ .returned none ∧
    (create_event c1State 5 "SystemNotification" 9 .NORMAL none ⟨"hi", "there"⟩).2.store
        = c1State.store ++
          [{ id := some 1, event_type := "SystemNotification",
             payload := [("title", "hi"), ("message", "there")],
             target_userid := 9, priority := .NORMAL, is_read := false,
             created_at := 5, expired_at := none }] := by
  exact ⟨rfl, by decide, rfl⟩

/-! ## Claim C2 -/

/-- Store/connection updates by _store_event never touch the connection state. -/
theorem store_event_conn (e : Event) (now : Time) (s : MgrState) :
    (_store_event e now s).2.conn = s.conn := by
  unfold _store_event
  cases e.to_entity now <;> rfl

/-- Manager state whose shutting-down flag is set (post-shutdown), with the
registry populated and nobody connected. -/
def c2State : MgrState :=
  { conn := ConnState.init
    max_connections := 10
    event_queue := []
    max_queue := 1000
    max_events_per_stream := 100
    store := []
    next_id := 0
    is_shutting_down := true
    registered := ["SystemNotification"] }

/-- C2 counterexample: in a state with is_shutting_down = true (a non-RUNNING
state), create_event still returns an event, _put_event still enqueues, and
register_user_stream still returns a stream id - none of them fails; no
ManagerNotRunning error exists anywhere in the code. -/
theorem C2_counterexample :
    c2State.is_shutting_down = true ∧
    (∃ e, (create_event c2State 0 "SystemNotification" 7 .NORMAL none ⟨"t", "m"⟩).1
        = .returned (some e)) ∧
    (register_user_stream c2State 0 7 "SystemNotification").1.isSome = true ∧
    (∃ s2, _put_event c2State (.raw (RawEventMessage.make "tick" 7 [] "NORMAL" 0))
        = .enqueued s2) := by
  exact ⟨rfl, ⟨_, rfl⟩, rfl, ⟨_, rfl⟩⟩

/-- C2 amended: the manager has no RUNNING-state guard at all; with the
shutting-down flag set, create_event (on a registered type, target offline)
still persists and returns the event, _put_event still enqueues whenever the
queue has room, and register_user_stream still returns a stream id.  No
operation fails with ManagerNotRunning in any state. -/
theorem C2_amended_no_state_guard (s : MgrState) (now : Time) (uid : Int)
    (et : String) (pr : EventPriority) (exp : Option Nat)
    (p : SystemNotificationPayload) (item : QueueItem)
    (hflag : s.is_shutting_down = true) :
    (et ∈ s.registered → uid ∉ s.conn.connKeys →
      ∃ e s2, create_event s now et uid pr exp p = (.returned (some e), s2)) ∧
    (s.event_queue.length < s.max_queue →
      ∃ s2, _put_event s item = .enqueued s2) ∧
    (∃ sid s2, register_user_stream s now uid et = (some sid, s2)) := by
  refine ⟨?_, ?_, ?_⟩
  · intro hreg hoff
    simp only [create_event]
    simp only [if_neg (not_not_intro hreg), store_event_conn, if_neg hoff]
    exact ⟨_, _, rfl⟩
  · intro hq
    simp only [_put_event]
    simp only [if_pos hq]
    exact ⟨_, rfl⟩
  · exact ⟨_, _, rfl⟩

/-- Witness instantiating the amended C2 at the concrete shutting-down state. -/
theorem C2_amended_witness :
    c2State.is_shutting_down = true ∧
    (∃ e s2, create_event c2State 0 "SystemNotification" 7 .NORMAL none ⟨"t", "m"⟩
        = (.returned (some e), s2)) ∧
    (∃ s2, _put_event c2State (.raw (RawEventMessage.make "tick" 7 [] "NORMAL" 0))
        = .enqueued s2) ∧
    (∃ sid s2, register_user_stream c2State 0 7 "SystemNotification"
        = (some sid, s2)) := by
  have h := C2_amended_no_state_guard c2State 0 7 "SystemNotification" .NORMAL
    none ⟨"t", "m"⟩ (.raw (RawEventMessage.make "tick" 7 [] "NORMAL" 0)) rfl
  exact ⟨rfl, h.1 (by decide) (by decide), h.2.1 (by decide), h.2.2⟩

/-! ## Claim C3 -/

/-- Row 0: an event create_event already persisted. -/
def c3Row : EventEntity :=
  { id := some 0, event_type := "SystemNotification",
    payload := [("title", "a"), ("message", "b")], target_userid := 3,
    priority := .NORMAL, is_read := false, created_at := 0, expired_at := none }

/-- The same event as it sits in the central queue: it already carries the
store-assigned id 0. -/
def c3Event : Event :=
  { Event.make 3 .NORMAL none ⟨"a", "b"⟩ 0 with id := some 0 }

/-- Manager state at shutdown time: the already-persisted event still waits in
the central queue. -/
def c3State : MgrState :=
  { conn := ConnState.init
    max_connections := 10
    event_queue := [.ev c3Event]
    max_queue := 1000
    max_events_per_stream := 100
    store := [c3Row]
    next_id := 1
    is_shutting_down := false
    registered := ["SystemNotification"] }

/-- C3 (code bug): the shutdown drain re-persists a drained deliverable event
even though its id is not null - neither the drain loop nor to_entity checks
the id - so an event create_event already persisted is stored a second time
and the store ends up with a duplicate row (same content, fresh id). -/
theorem C3_shutdown_drain_duplicates :
    c3Event.id = some 0 ∧
    shutdownDrain c3State 5 = .ok { c3State with
      event_queue := []
      store := [c3Row, { c3Row with id := some 1 }]
      next_id := 2 } ∧
    (∃ s2, shutdown c3State 5 = .ok s2 ∧
      s2.store = [c3Row, { c3Row with id := some 1 }]) := by
  exact ⟨rfl, rfl, ⟨_, rfl, rfl⟩⟩

end FunlabSSE
